import Mathlib

/-!
Shallow embedding of `src/ftsintensity.cpp` (xgtools).

The program calibrates an FTS line spectrum against a fitted response
function.  Numeric values (`double` / `float`) are embedded as exact
rationals `ℚ`; the claims settled here concern control flow, parsing
columns, record counts and the zeroing policy, none of which hinge on
floating-point rounding.  The GSL spline fit is an external library
call; the fitted predictor `gsl_multifit_linear_est` is abstracted as a
parameter `splineEst : ℚ → ℚ × ℚ` returning `(ySpline, yerr)`.

C++ stream semantics used by the source are made explicit:
* `getline` sets `eofbit` exactly when it runs into the end of input
  while extracting, i.e. when it delivers the final segment of a file
  that is not terminated by a newline (or an empty string at the very
  end).  We therefore split a file once into its newline-terminated
  lines plus the unterminated trailing segment (`splitNl`), and fold
  the source's getline loops over that split.
* A failed formatted extraction (`iss >> v`) that was actually
  attempted stores `0` in an arithmetic variable (C++11 semantics,
  the dialect the build command in the source header compiles under);
  an extraction whose sentry already fails (empty / all-whitespace
  input) leaves the variable untouched.
-/

/-! ## Character classification (C locale, ASCII) -/

def isWsC (c : Char) : Bool :=
  c = ' ' || c = '\t' || c = '\n' || c = '\r' || c = '\x0b' || c = '\x0c'

def isdigitC (c : Char) : Bool := '0' ≤ c && c ≤ '9'

def isalphaC (c : Char) : Bool := ('A' ≤ c && c ≤ 'Z') || ('a' ≤ c && c ≤ 'z')

def isalnumC (c : Char) : Bool := isalphaC c || isdigitC c

/-- Source `is_numeric`: scans the string and rejects as soon as a
character is not alphanumeric or is alphabetic
(`if (!isalnum(a[i]) || isalpha(a[i])) return false;`). -/
def is_numeric (a : List Char) : Bool :=
  a.all (fun c => !(!(isalnumC c) || isalphaC c))

/-! ## Formatted numeric extraction (`istringstream >> double`, `>> size_t`) -/

def skipWs (l : List Char) : List Char := l.dropWhile isWsC

def digitsVal (l : List Char) : Nat :=
  l.foldl (fun a c => a * 10 + (c.toNat - 48)) 0

/-- Mantissa value: `sgn * (integer-part . fraction-part)`. -/
def ratOfParts (sgn : ℚ) (ds fs : List Char) : ℚ :=
  sgn * ((digitsVal ds : ℚ) + (digitsVal fs : ℚ) / (10 : ℚ) ^ fs.length)

/-- Exponent tail of a float literal: optional sign then at least one digit;
`num_get` fails the whole extraction when the digits are missing. -/
def ratExpTail (mant : ℚ) (r : List Char) : Option (ℚ × List Char) :=
  let sr : Bool × List Char :=
    match r with
    | '+' :: q => (true, q)
    | '-' :: q => (false, q)
    | _ => (true, r)
  let eds := sr.2.takeWhile isdigitC
  if eds = [] then none
  else
    some ((if sr.1 then mant * (10 : ℚ) ^ digitsVal eds
           else mant / (10 : ℚ) ^ digitsVal eds),
          sr.2.dropWhile isdigitC)

/-- Decimal floating literal at the head of `s` (whitespace already skipped):
`[+-] digits [. digits] [eE [+-] digits]`, needing at least one mantissa
digit.  Returns the value and the unconsumed rest, or `none` when the
extraction fails. -/
def ratNumHead (s : List Char) : Option (ℚ × List Char) :=
  let sg : ℚ × List Char :=
    match s with
    | '+' :: r => (1, r)
    | '-' :: r => (-1, r)
    | _ => (1, s)
  let ds := sg.2.takeWhile isdigitC
  let s2 := sg.2.dropWhile isdigitC
  let fp : List Char × List Char :=
    match s2 with
    | '.' :: r => (r.takeWhile isdigitC, r.dropWhile isdigitC)
    | _ => ([], s2)
  if ds = [] && fp.1 = [] then none
  else
    let mant := ratOfParts sg.1 ds fp.1
    match fp.2 with
    | 'e' :: r => ratExpTail mant r
    | 'E' :: r => ratExpTail mant r
    | _ => some (mant, fp.2)

/-- The extraction `iss >> xi >> yi` on one response line (source lines 224–225), with the
current values of the loop variables `xi`, `yi` carried in: a sentry failure
leaves the variable untouched, an attempted-but-failed conversion stores 0
and sets `failbit` which blocks the second extraction. -/
def parseTwo (line : List Char) (xi yi : ℚ) : ℚ × ℚ :=
  match skipWs line with
  | [] => (xi, yi)
  | s1 =>
    match ratNumHead s1 with
    | none => (0, yi)
    | some (v, rest) =>
      match skipWs rest with
      | [] => (v, yi)
      | s2 =>
        match ratNumHead s2 with
        | none => (v, 0)
        | some (w, _) => (v, w)

/-- The extraction `iss >> NextField` (source line 137): first whitespace-delimited token of
a line, `none` when the sentry fails (blank line) and the previous string
value survives. -/
def firstTok (line : List Char) : Option (List Char) :=
  match skipWs line with
  | [] => none
  | s => some (s.takeWhile (fun c => !(isWsC c)))

/-! ## File / stream model -/

/-- Split a file into its newline-terminated lines and the unterminated
trailing segment.  `getline` on the original stream yields exactly the
elements of the first component with `eofbit` clear, then the second
component with `eofbit` set. -/
def splitNl : List Char → List (List Char) × List Char
  | [] => ([], [])
  | c :: cs =>
    let p := splitNl cs
    if c = '\n' then ([] :: p.1, p.2)
    else
      match p.1 with
      | [] => ([], c :: p.2)
      | l :: rest => ((c :: l) :: rest, p.2)

/-- Lines each terminated by a newline, concatenated back into file content
(left inverse of `splitNl` on newline-free lines). -/
def joinNl : List (List Char) → List Char
  | [] => []
  | l :: ls => l ++ '\n' :: joinNl ls

/-! ## getXGremlinHeaderField (source lines 127–151) -/

/-- Possible outcomes of `getXGremlinHeaderField`.  `thrown` is the
`throw (1)` caught in `main`; `terminated` is `LineString.substr (9, 23)`
raising `std::out_of_range`, which escapes the `throw (int)` exception
specification and terminates the process; `indeterminate` is the path where
`iss >> ReturnValue` never attempts an extraction and the uninitialized
`ReturnValue` is returned. -/
inductive HeaderResult where
  | value (v : ℚ)
  | thrown
  | terminated
  | indeterminate
deriving DecidableEq

/-- The do-while scan of the header (source lines 134–139): read a line,
take its first token (keeping the previous token when the line is blank),
stop when the token matches `field` or the stream hit end-of-file.  Returns
(final `LineString`, final `NextField`, `Header.eof ()`). -/
def scanList : List (List Char) → List Char → List Char → List Char →
    List Char × List Char × Bool
  | [], t, _, prevTok => (t, (firstTok t).getD prevTok, true)
  | l :: ls, t, field, prevTok =>
    let tok := (firstTok l).getD prevTok
    if tok = field then (l, tok, false)
    else scanList ls t field tok

/-- Source `getXGremlinHeaderField` (lines 127–151): scan for `field`; if
the stream hit end-of-file, `throw (1)`; otherwise parse
`LineString.substr (9, 23)` — the 23 characters at 0-indexed columns
9–31 — as a `double`. -/
def getXGremlinHeaderField (content field : List Char) : HeaderResult :=
  let p := splitNl content
  let r := scanList p.1 p.2 field []
  if r.2.2 then HeaderResult.thrown
  else if r.1.length < 9 then HeaderResult.terminated
  else
    match skipWs ((r.1.drop 9).take 23) with
    | [] => HeaderResult.indeterminate
    | s =>
      match ratNumHead s with
      | none => HeaderResult.value 0
      | some (v, _) => HeaderResult.value v

/-- Modelled from the spec (for comparison only, not from the source):
"parse a fixed-width numeric substring (columns 10–32, 0-indexed)" — the
same reader but taking the 23 characters at 0-indexed columns 10–32. -/
def getHeaderFieldSpecColumns (content field : List Char) : HeaderResult :=
  let p := splitNl content
  let r := scanList p.1 p.2 field []
  if r.2.2 then HeaderResult.thrown
  else if r.1.length < 10 then HeaderResult.terminated
  else
    match skipWs ((r.1.drop 10).take 23) with
    | [] => HeaderResult.indeterminate
    | s =>
      match ratNumHead s with
      | none => HeaderResult.value 0
      | some (v, _) => HeaderResult.value v

/-! ## Response loader (source lines 219–238) -/

/-- The getline loop of the response loader: one iteration per
newline-terminated line (the unterminated trailing segment sets `eofbit`
on its getline, so the loop exits without processing it).  Each iteration
does `n ++`, re-parses `xi`, `yi`, and pushes them onto `xVec` / `yVec`. -/
def loadList : List (List Char) → ℚ → ℚ → Nat × List ℚ × List ℚ
  | [], _, _ => (0, [], [])
  | l :: ls, xi, yi =>
    let p := parseTwo l xi yi
    let rest := loadList ls p.1 p.2
    (rest.1 + 1, p.1 :: rest.2.1, p.2 :: rest.2.2)

/-- Load the normalised response function from the file content.  `xi`, `yi`
are uninitialized `double`s in the source; `0` stands in for their initial
values (no claim depends on them: they only surface on a blank first
line). -/
def loadResponse (content : List Char) : Nat × List ℚ × List ℚ :=
  loadList (splitNl content).1 0 0

/-- A response line that parses completely: both extractions succeed, so the
resulting pair is independent of the carried `xi`, `yi`. -/
def pairOf (l : List Char) : Option (ℚ × ℚ) :=
  match ratNumHead (skipWs l) with
  | none => none
  | some (v, rest) =>
    match ratNumHead (skipWs rest) with
    | none => none
    | some (w, _) => some (v, w)

/-! ## getNumCoefficients (source lines 98–119) -/

/-- The extraction `iss >> ncoeffs` for a `size_t` on an all-digit string: the value,
clamped to `SIZE_MAX` on overflow (C++11 stores the maximum on
out-of-range).  `digitsVal [] = 0` stands in for the indeterminate value
left by a sentry failure on an empty argument. -/
def parseSizeT (l : List Char) : Nat := min (digitsVal l) (2 ^ 64 - 1)

/-- Source `getNumCoefficients` (lines 98–119).  With `argc == 4` the
default 200 is used.  Otherwise a non-numeric argument, or a parsed value
below 4, makes the function `return 1` — note that this `1` is returned as
the value of `ncoeffs` itself, `main` never distinguishes it from a real
coefficient count. -/
def getNumCoefficients (args : List (List Char)) : Nat :=
  if args.length = 4 then 200
  else
    let a4 := (args.get? 4).getD []
    if is_numeric a4 then
      let v := parseSizeT a4
      if v < 4 then 1 else v
    else 1

/-! ## Calibration loop (source lines 302–318) -/

/-- The `(int)` cast of a `double`: truncation toward zero. -/
def doubleToInt (q : ℚ) : Int := if 0 ≤ q then q.floor else -(-q).floor

/-- One pass of the calibration loop with `remaining` iterations left,
current index `i` and the current value of `floatyi` (a read past the end
of the spectrum fails and leaves `floatyi` unchanged).  In-domain samples
are divided by the fitted response `(splineEst x).1`; out-of-domain samples
are written as `0.0`.  The second component of `splineEst x` is the `yerr`
output of `gsl_multifit_linear_est`, which the loop never uses. -/
def calibGo (spec : List ℚ) (wstart delw xmin xmax : ℚ) (splineEst : ℚ → ℚ × ℚ) :
    Nat → Nat → ℚ → List ℚ
  | 0, _, _ => []
  | r + 1, i, prev =>
    let v := (spec.get? i).getD prev
    let x := (i : ℚ) * delw + wstart
    (if xmin ≤ x ∧ x ≤ xmax then v / (splineEst x).1 else 0) ::
      calibGo spec wstart delw xmin xmax splineEst r (i + 1) v

/-- The calibration loop `for (int i = 0; i < numPts; i ++)` (source lines
302–318): records written to the calibrated spectrum, in order.  `floatyi`
is an uninitialized `float` in the source; `0` stands in for its initial
value (it is only visible when the very first read fails). -/
def calibrate (numPts : Int) (wstart delw xmin xmax : ℚ)
    (splineEst : ℚ → ℚ × ℚ) (spec : List ℚ) : List ℚ :=
  calibGo spec wstart delw xmin xmax splineEst numPts.toNat 0 0

/-! ## main (source lines 156–355) -/

def XMIN_TAG : List Char := "wstart".toList
def XMAX_TAG : List Char := "wstop".toList
def DELTAX_TAG : List Char := "delw".toList
def NUM_PTS_TAG : List Char := "npo".toList

/-- The externally visible inputs of one run: the argument vector (index 0
is the program name) and the four file-system endpoints (`none`: the file
fails to open / the stream is not writable). -/
structure SysInput where
  args : List (List Char)
  headerFile : Option (List Char)
  responseFile : Option (List Char)
  spectrumFile : Option (List ℚ)
  outputWritable : Bool

/-- How a run of `main` ends.  `oobAccess` is the out-of-bounds
`xVec[0]` / `xVec[xVec.size () - 1]` on an empty vector (undefined
behaviour in the source); `headerTerminate` / `headerIndeterminate`
propagate the corresponding `HeaderResult`s. -/
inductive Outcome where
  | usage
  | headerOpenFail
  | headerFieldFail
  | headerTerminate
  | headerIndeterminate
  | responseOpenFail
  | oobAccess
  | insufficientSamples
  | spectrumOpenFail
  | outputOpenFail
  | success
deriving DecidableEq

/-- One `getXGremlinHeaderField` call from `main`'s try block, mapped to the
outcome it produces when it does not yield a value. -/
def readHeaderField (hdr tag : List Char) : Except Outcome ℚ :=
  match getXGremlinHeaderField hdr tag with
  | HeaderResult.value v => Except.ok v
  | HeaderResult.thrown => Except.error Outcome.headerFieldFail
  | HeaderResult.terminated => Except.error Outcome.headerTerminate
  | HeaderResult.indeterminate => Except.error Outcome.headerIndeterminate

/-- Source `main` (lines 156–355): returns the outcome, the records written
to the calibrated spectrum (`<output>.dat`) and the content written to the
output header (`<output>.hdr`); `none` when the run fails before the file
is produced.  Order of operations follows the source: argc check, then
`getNumCoefficients` (whose error paths do NOT stop the run), header
open + four field extractions, response open + load, `xVec[0]` and
`xVec[xVec.size () - 1]`, the `n <= ncoeffs` guard, spectrum/output opens,
the calibration loop, and finally the byte-for-byte header copy. -/
def ftsMain (inp : SysInput) (splineEst : ℚ → ℚ × ℚ) :
    Outcome × Option (List ℚ) × Option (List Char) :=
  if inp.args.length ≠ 4 ∧ inp.args.length ≠ 5 then (Outcome.usage, none, none)
  else
    let ncoeffs := getNumCoefficients inp.args
    match inp.headerFile with
    | none => (Outcome.headerOpenFail, none, none)
    | some hdr =>
      match readHeaderField hdr XMIN_TAG, readHeaderField hdr XMAX_TAG,
            readHeaderField hdr DELTAX_TAG, readHeaderField hdr NUM_PTS_TAG with
      | Except.ok wstart, Except.ok _wstop, Except.ok delw, Except.ok npo =>
        let numPts := doubleToInt npo
        match inp.responseFile with
        | none => (Outcome.responseOpenFail, none, none)
        | some resp =>
          let ld := loadResponse resp
          match ld.2.1.get? 0, ld.2.1.get? (ld.2.1.length - 1) with
          | some xmin, some xmax =>
            if ld.1 ≤ ncoeffs then (Outcome.insufficientSamples, none, none)
            else
              match inp.spectrumFile with
              | none => (Outcome.spectrumOpenFail, none, none)
              | some spec =>
                if inp.outputWritable then
                  (Outcome.success,
                   some (calibrate numPts wstart delw xmin xmax splineEst spec),
                   some hdr)
                else (Outcome.outputOpenFail, none, none)
          | _, _ => (Outcome.oobAccess, none, none)
      | Except.error e, _, _, _ => (e, none, none)
      | _, Except.error e, _, _ => (e, none, none)
      | _, _, Except.error e, _ => (e, none, none)
      | _, _, _, Except.error e => (e, none, none)

/-! ## Concrete fixtures for instantiating the theorems -/

/-- A well-formed XGremlin header: `wstart 100`, `wstop 101`, `delw 1`,
`npo 2`, values in columns 10–32 (1-indexed). -/
def hdrW : List Char := ("wstart   100\nwstop    101\ndelw     1\nnpo      2\n").toList

/-- A response file with 5 samples spanning [0, 200], all of response 1. -/
def respW : List Char := ("0 1\n50 1\n100 1\n150 1\n200 1\n").toList

/-- A response file with only 3 samples. -/
def respSmallW : List Char := ("0 1\n1 1\n2 1\n").toList

/-- The `argv` for `ftsintensity spec resp out 4`. -/
def argsW : List (List Char) := ["ftsintensity", "spec", "resp", "out", "4"].map String.toList

/-- An arbitrary fitted-spline predictor: response 1 everywhere, error 0. -/
def evalW : ℚ → ℚ × ℚ := fun _ => (1, 0)

/-! ## Lemmas about the stream split -/

/-- A newline-free file is a single unterminated trailing segment. -/
theorem splitNl_no_nl (t : List Char) (h : '\n' ∉ t) : splitNl t = ([], t) := by
  induction t with
  | nil => rfl
  | cons c cs ih =>
    have hc : c ≠ '\n' := fun hc => h (hc ▸ List.mem_cons_self c cs)
    have hcs : '\n' ∉ cs := fun hm => h (List.mem_cons_of_mem c hm)
    simp [splitNl, ih hcs, hc]

/-- Splitting off one newline-terminated line. -/
theorem splitNl_cons_line (l r : List Char) (h : '\n' ∉ l) :
    splitNl (l ++ '\n' :: r) = (l :: (splitNl r).1, (splitNl r).2) := by
  induction l with
  | nil => simp [splitNl]
  | cons c cs ih =>
    have hc : c ≠ '\n' := fun hc => h (hc ▸ List.mem_cons_self c cs)
    have hcs : '\n' ∉ cs := fun hm => h (List.mem_cons_of_mem c hm)
    simp [splitNl, ih hcs, hc]

/-- Lemma: `splitNl` recovers newline-free lines and a newline-free trailing
segment from their concatenation. -/
theorem splitNl_join (ls : List (List Char)) (t : List Char)
    (hls : ∀ l ∈ ls, '\n' ∉ l) (ht : '\n' ∉ t) :
    splitNl (joinNl ls ++ t) = (ls, t) := by
  induction ls with
  | nil => simpa [joinNl] using splitNl_no_nl t ht
  | cons l ls ih =>
    have hl : '\n' ∉ l := hls l (List.mem_cons_self l ls)
    have hls' : ∀ x ∈ ls, '\n' ∉ x := fun x hx => hls x (List.mem_cons_of_mem l hx)
    simp [joinNl, splitNl_cons_line _ _ hl, ih hls']

theorem joinNl_append (a b : List (List Char)) :
    joinNl (a ++ b) = joinNl a ++ joinNl b := by
  induction a with
  | nil => rfl
  | cons l ls ih => simp [joinNl, ih]

/-! ## Lemmas about the header scan -/

/-- When no line of `ls` has a first token equal to `field` (and neither is
the carried token), the scan runs off the end of the terminated lines; the
final getline delivers the trailing segment `t` with `eofbit` set, and when
`t`'s own first token is `field` the loop still exits in the eof state. -/
theorem scanList_no_match (ls : List (List Char)) (t field : List Char)
    (hm : ∀ l ∈ ls, ∀ tk, firstTok l = some tk → tk ≠ field)
    (ht : firstTok t = some field) :
    ∀ prevTok, prevTok ≠ field → scanList ls t field prevTok = (t, field, true) := by
  induction ls with
  | nil => intro prevTok _; simp [scanList, ht]
  | cons l ls ih =>
    intro prevTok hp
    have hm' : ∀ x ∈ ls, ∀ tk, firstTok x = some tk → tk ≠ field :=
      fun x hx => hm x (List.mem_cons_of_mem l hx)
    have htok : (firstTok l).getD prevTok ≠ field := by
      cases hf : firstTok l with
      | none => simpa using hp
      | some tk => simpa using hm l (List.mem_cons_self l ls) tk hf
    simp only [scanList, if_neg htok]
    exact ih hm' _ htok

/-- Claim C10: `getXGremlinHeaderField` throws its field-not-found error
whenever the stream's end-of-file flag is set after the scan loop, even if
the loop exited because the final line scanned matched the requested field
name: for a header whose last line is not terminated by a newline, a field
located on that last line is reported as missing.  Here `joinNl ls ++ t` is
a header whose terminated lines `ls` never carry the field and whose
unterminated last line `t` has `field` as its first token. -/
theorem c10_eof_field_missing (ls : List (List Char)) (t field : List Char)
    (hls : ∀ l ∈ ls, '\n' ∉ l) (ht : '\n' ∉ t)
    (hfield : field ≠ [])
    (hm : ∀ l ∈ ls, ∀ tk, firstTok l = some tk → tk ≠ field)
    (hmatch : firstTok t = some field) :
    getXGremlinHeaderField (joinNl ls ++ t) field = HeaderResult.thrown := by
  have hsplit := splitNl_join ls t hls ht
  have hscan := scanList_no_match ls t field hm hmatch [] (Ne.symm hfield)
  simp [getXGremlinHeaderField, hsplit, hscan]

/-- Claim C10 witness: the header `"wstart   1\nnpo      5"` ends in an
unterminated line whose first token is `npo`; the reader still reports the
field as missing. -/
theorem c10_eof_field_missing_witness :
    getXGremlinHeaderField ("wstart   1\nnpo      5").toList NUM_PTS_TAG =
      HeaderResult.thrown := by
  have h := c10_eof_field_missing ["wstart   1".toList] ("npo      5").toList NUM_PTS_TAG
    (by decide) (by decide) (by decide) (by decide) (by decide)
  simpa [joinNl] using h

/-- Claim C2 (amended): when the header scan stops on a line whose first
whitespace-delimited token equals the requested field name without hitting
end-of-file, `getXGremlinHeaderField` parses the numeric value from the
fixed-width substring `substr (9, 23)` — the 23 characters at 0-indexed
columns 9–31 (1-indexed columns 10–32) — and returns it as the field
value. -/
theorem c2_value_columns (content field line tok : List Char) (v : ℚ) (rest : List Char)
    (hscan : scanList (splitNl content).1 (splitNl content).2 field [] = (line, tok, false))
    (hlen : ¬ line.length < 9)
    (hsub : ratNumHead (skipWs ((line.drop 9).take 23)) = some (v, rest)) :
    getXGremlinHeaderField content field = HeaderResult.value v := by
  have hne : skipWs ((line.drop 9).take 23) ≠ [] := by
    intro h
    rw [h] at hsub
    simp [ratNumHead, List.takeWhile] at hsub
  simp only [getXGremlinHeaderField]
  rw [hscan]
  simp only [if_neg hlen]
  cases hs : skipWs ((line.drop 9).take 23) with
  | nil => exact absurd hs hne
  | cons c cs =>
    rw [hs] at hsub
    simp [hsub]

/-- Claim C2 witness: on the header line `"wstart   12"` (value digits at
0-indexed columns 9 and 10) the reader returns 12, the parse of columns
9–31. -/
theorem c2_value_columns_witness :
    getXGremlinHeaderField ("wstart   12\n").toList XMIN_TAG = HeaderResult.value 12 :=
  c2_value_columns ("wstart   12\n").toList XMIN_TAG ("wstart   12").toList
    ("wstart").toList 12 []
    (by with_unfolding_all decide) (by decide) (by with_unfolding_all decide)

/-- Claim C2 counterexample: the claim reads the value from 0-indexed
columns 10–32.  On the header line `"wstart   12"` the code's parse
(`substr (9, 23)`, 0-indexed columns 9–31) yields 12, while a parse of
0-indexed columns 10–32 yields 2, so the claimed columns do not describe
the code. -/
theorem c2_columns_counterexample :
    getXGremlinHeaderField ("wstart   12\n").toList XMIN_TAG = HeaderResult.value 12 ∧
    getHeaderFieldSpecColumns ("wstart   12\n").toList XMIN_TAG = HeaderResult.value 2 ∧
    getXGremlinHeaderField ("wstart   12\n").toList XMIN_TAG ≠
      getHeaderFieldSpecColumns ("wstart   12\n").toList XMIN_TAG := by
  refine ⟨?_, ?_, ?_⟩ <;> with_unfolding_all decide

/-- Claim C1 (the code, at the claim's failing input): invoked as
`ftsintensity spec resp out 3` (or with a non-numeric argument 4),
`getNumCoefficients` prints its error message but returns `1` as the value
of `ncoeffs`; `main` never inspects it, so the run does NOT stop with a
usage error before file I/O — it continues to the header open (here the
header is absent, so the run reaches the header-open failure, an outcome
distinct from the usage exit). -/
theorem c1_arg3_not_usage_exit :
    getNumCoefficients (["ftsintensity", "spec", "resp", "out", "3"].map String.toList) = 1 ∧
    getNumCoefficients (["ftsintensity", "spec", "resp", "out", "abc"].map String.toList) = 1 ∧
    ftsMain ⟨["ftsintensity", "spec", "resp", "out", "3"].map String.toList,
             none, none, none, false⟩ (fun _ => (0, 0)) =
      (Outcome.headerOpenFail, none, none) ∧
    Outcome.headerOpenFail ≠ Outcome.usage := by
  refine ⟨?_, ?_, ?_, ?_⟩ <;> with_unfolding_all decide

/-! ## Lemmas about the calibration loop -/

theorem calibGo_length (spec : List ℚ) (w d a b : ℚ) (ev : ℚ → ℚ × ℚ) :
    ∀ (r i : Nat) (prev : ℚ), (calibGo spec w d a b ev r i prev).length = r := by
  intro r
  induction r with
  | zero => intro i prev; rfl
  | succ r ih => intro i prev; simp [calibGo, ih]

/-- Any record of the calibration loop whose query point falls outside
`[a, b]` is written as 0. -/
theorem calibGo_get_out (spec : List ℚ) (w d a b : ℚ) (ev : ℚ → ℚ × ℚ) :
    ∀ (r i : Nat) (prev : ℚ) (k : Nat), k < r →
      ¬(a ≤ ((i + k : Nat) : ℚ) * d + w ∧ ((i + k : Nat) : ℚ) * d + w ≤ b) →
      (calibGo spec w d a b ev r i prev).get? k = some 0 := by
  intro r
  induction r with
  | zero => intro i prev k hk; exact absurd hk (Nat.not_lt_zero k)
  | succ r ih =>
    intro i prev k hk hout
    cases k with
    | zero =>
      simp only [Nat.add_zero] at hout
      simp [calibGo, if_neg hout]
    | succ k =>
      have hout' : ¬(a ≤ (((i + 1) + k : Nat) : ℚ) * d + w ∧
          (((i + 1) + k : Nat) : ℚ) * d + w ≤ b) := by
        have : (i + 1) + k = i + (k + 1) := by omega
        rw [this]
        exact hout
      simp only [calibGo, List.get?_cons_succ]
      exact ih (i + 1) _ k (Nat.lt_of_succ_lt_succ hk) hout'

/-- Any record of the calibration loop whose query point falls inside
`[a, b]`, and whose spectrum record exists, is the measured value divided by
the first component (`ySpline`) of the fitted predictor; the second
component (`yerr`) never enters. -/
theorem calibGo_get_in (spec : List ℚ) (w d a b : ℚ) (ev : ℚ → ℚ × ℚ) :
    ∀ (r i : Nat) (prev : ℚ) (k : Nat), k < r → i + k < spec.length →
      (a ≤ ((i + k : Nat) : ℚ) * d + w ∧ ((i + k : Nat) : ℚ) * d + w ≤ b) →
      (calibGo spec w d a b ev r i prev).get? k =
        (spec.get? (i + k)).map (fun m => m / (ev (((i + k : Nat) : ℚ) * d + w)).1) := by
  intro r
  induction r with
  | zero => intro i prev k hk; exact absurd hk (Nat.not_lt_zero k)
  | succ r ih =>
    intro i prev k hk hsp hin
    cases k with
    | zero =>
      simp only [Nat.add_zero] at hin hsp ⊢
      have hm : spec[i]? = some (spec.get ⟨i, hsp⟩) := by
        rw [← List.get?_eq_getElem?]
        exact List.get?_eq_get hsp
      simp [calibGo, if_pos hin, hm]
    | succ k =>
      have heq : (i + 1) + k = i + (k + 1) := by omega
      have hin' := heq ▸ hin
      have hsp' : (i + 1) + k < spec.length := by omega
      simp only [calibGo, List.get?_cons_succ]
      rw [ih (i + 1) _ k (Nat.lt_of_succ_lt_succ hk) hsp' hin', heq]

/-- Claim C3: every sample index `i` below `numPts` whose query wavenumber
`i·delw + wstart` lies outside the fitted domain `[xmin, xmax]` has its
calibrated record written as exactly 0. -/
theorem c3_out_of_domain_zero (numPts : Int) (wstart delw xmin xmax : ℚ)
    (splineEst : ℚ → ℚ × ℚ) (spec : List ℚ) (i : Nat)
    (hi : i < numPts.toNat)
    (hout : ¬(xmin ≤ (i : ℚ) * delw + wstart ∧ (i : ℚ) * delw + wstart ≤ xmax)) :
    (calibrate numPts wstart delw xmin xmax splineEst spec).get? i = some 0 := by
  have h := calibGo_get_out spec wstart delw xmin xmax splineEst numPts.toNat 0 0 i hi
  simp only [Nat.zero_add] at h
  exact h hout

/-- Claim C3 witness: one sample at wavenumber 0, domain `[10, 20]`: the
record is 0. -/
theorem c3_out_of_domain_zero_witness :
    (calibrate 1 0 1 10 20 evalW [5]).get? 0 = some 0 :=
  c3_out_of_domain_zero 1 0 1 10 20 evalW [5] 0 (by decide)
    (by with_unfolding_all decide)

/-- Claim C6: every sample index `i` below `numPts` whose query wavenumber
`x_i = i·delw + wstart` lies inside `[xmin, xmax]` is written as the
measured intensity at `i` divided by the fitted response `ySpline` — the
first component of the predictor at `x_i`; the predictor's second component
(the estimation standard error `yerr`) does not enter the formula. -/
theorem c6_in_domain_division (numPts : Int) (wstart delw xmin xmax : ℚ)
    (splineEst : ℚ → ℚ × ℚ) (spec : List ℚ) (i : Nat)
    (hi : i < numPts.toNat) (hsp : i < spec.length)
    (hin : xmin ≤ (i : ℚ) * delw + wstart ∧ (i : ℚ) * delw + wstart ≤ xmax) :
    (calibrate numPts wstart delw xmin xmax splineEst spec).get? i =
      (spec.get? i).map (fun m => m / (splineEst ((i : ℚ) * delw + wstart)).1) := by
  have h := calibGo_get_in spec wstart delw xmin xmax splineEst numPts.toNat 0 0 i hi
  simp only [Nat.zero_add] at h
  exact h hsp hin

/-- Claim C6 witness: one sample of measured intensity 6, response 2 at the
query point: the record is 3. -/
theorem c6_in_domain_division_witness :
    (calibrate 1 0 1 0 5 (fun _ => ((2 : ℚ), (37 : ℚ))) [6]).get? 0 = some 3 := by
  have h := c6_in_domain_division 1 0 1 0 5 (fun _ => ((2 : ℚ), (37 : ℚ))) [6] 0
    (by decide) (by decide) (by with_unfolding_all decide)
  rw [h]
  with_unfolding_all decide

/-! ## Lemmas about the response loader -/

/-- A line whose two extractions both succeed parses to the same pair
whatever the carried `xi`, `yi` are. -/
theorem pairOf_parseTwo (l : List Char) (p : ℚ × ℚ) (h : pairOf l = some p) :
    ∀ xi yi, parseTwo l xi yi = p := by
  intro xi yi
  unfold pairOf at h
  cases hr : ratNumHead (skipWs l) with
  | none => rw [hr] at h; simp at h
  | some vr =>
    obtain ⟨v, rest⟩ := vr
    rw [hr] at h
    dsimp only at h
    cases hr2 : ratNumHead (skipWs rest) with
    | none => rw [hr2] at h; simp at h
    | some wr =>
      obtain ⟨w, rest2⟩ := wr
      rw [hr2] at h
      simp only [Option.some.injEq] at h
      subst h
      have hne1 : skipWs l ≠ [] := by
        intro hsl; rw [hsl] at hr; simp [ratNumHead, List.takeWhile] at hr
      have hne2 : skipWs rest ≠ [] := by
        intro hsr; rw [hsr] at hr2; simp [ratNumHead, List.takeWhile] at hr2
      unfold parseTwo
      cases hsl : skipWs l with
      | nil => exact absurd hsl hne1
      | cons c cs =>
        rw [hsl] at hr
        cases hsr : skipWs rest with
        | nil => exact absurd hsr hne2
        | cons c2 cs2 =>
          rw [hsr] at hr2
          simp [hr, hsr, hr2]

/-- The loader on fully-parsing lines: one sample per line, in file
order. -/
theorem loadList_good : ∀ (ls : List (List Char)) (xi yi : ℚ),
    (∀ l ∈ ls, (pairOf l).isSome = true) →
    loadList ls xi yi =
      (ls.length,
       ls.map (fun l => ((pairOf l).getD (0, 0)).1),
       ls.map (fun l => ((pairOf l).getD (0, 0)).2)) := by
  intro ls
  induction ls with
  | nil => intro xi yi _; rfl
  | cons l ls ih =>
    intro xi yi h
    obtain ⟨p, hp⟩ := Option.isSome_iff_exists.mp (h l (List.mem_cons_self l ls))
    have hpt := pairOf_parseTwo l p hp xi yi
    have ih' := ih p.1 p.2 (fun x hx => h x (List.mem_cons_of_mem l hx))
    simp [loadList, hpt, ih', hp]

/-- The loader on fully-parsing lines followed by one blank line: the blank
line is processed too — `n` is incremented and the carried pair (the last
parsed sample, or the initial `xi`, `yi` when there is none) is pushed
again. -/
theorem loadList_blank : ∀ (ls : List (List Char)) (xi yi : ℚ),
    (∀ l ∈ ls, (pairOf l).isSome = true) →
    loadList (ls ++ [[]]) xi yi =
      (ls.length + 1,
       ls.map (fun l => ((pairOf l).getD (0, 0)).1) ++
         [((ls.map (fun l => (pairOf l).getD (0, 0))).getLastD (xi, yi)).1],
       ls.map (fun l => ((pairOf l).getD (0, 0)).2) ++
         [((ls.map (fun l => (pairOf l).getD (0, 0))).getLastD (xi, yi)).2]) := by
  intro ls
  induction ls with
  | nil =>
    intro xi yi _
    simp [loadList, parseTwo, skipWs]
  | cons l ls ih =>
    intro xi yi h
    obtain ⟨p, hp⟩ := Option.isSome_iff_exists.mp (h l (List.mem_cons_self l ls))
    have hpt := pairOf_parseTwo l p hp xi yi
    have ih' := ih p.1 p.2 (fun x hx => h x (List.mem_cons_of_mem l hx))
    simp only [List.cons_append, loadList, List.append_eq, hpt, ih', hp, List.map_cons,
      List.length_cons, List.getLastD_cons, Option.getD_some, Prod.mk.eta]

/-- Claim C4 counterexample: the claim says blank trailing lines add no
samples and leave `n` unchanged.  Appending one blank line to
`"1 2\n3 4\n"` raises the sample count from 2 to 3: the loop body runs for
the blank line, both extractions fail with the sentry, and the previous
`(3, 4)` is pushed a second time. -/
theorem c4_blank_line_counterexample :
    loadResponse ("1 2\n3 4\n").toList = (2, [1, 3], [2, 4]) ∧
    loadResponse ("1 2\n3 4\n\n").toList = (3, [1, 3, 3], [2, 4, 4]) ∧
    (loadResponse ("1 2\n3 4\n\n").toList).1 ≠ (loadResponse ("1 2\n3 4\n").toList).1 := by
  refine ⟨?_, ?_, ?_⟩ <;> with_unfolding_all decide

/-- Claim C4 (amended): for a response file of newline-terminated lines
whose non-empty lines each hold two whitespace-separated floating-point
tokens, the loader appends each `(x, y)` pair to the x- and y-sequences in
file order (ending the file right after the final newline adds nothing);
but a trailing blank line is NOT ignored: it runs the loop body once more,
incrementing `n` and appending a duplicate of the previously parsed pair
(or of the initial loop-variable values when no line parsed before). -/
theorem c4_loader_order_amended (ls : List (List Char))
    (hnl : ∀ l ∈ ls, '\n' ∉ l)
    (hgood : ∀ l ∈ ls, (pairOf l).isSome = true) :
    loadResponse (joinNl ls) =
      (ls.length,
       ls.map (fun l => ((pairOf l).getD (0, 0)).1),
       ls.map (fun l => ((pairOf l).getD (0, 0)).2)) ∧
    loadResponse (joinNl (ls ++ [[]])) =
      (ls.length + 1,
       ls.map (fun l => ((pairOf l).getD (0, 0)).1) ++
         [((ls.map (fun l => (pairOf l).getD (0, 0))).getLastD (0, 0)).1],
       ls.map (fun l => ((pairOf l).getD (0, 0)).2) ++
         [((ls.map (fun l => (pairOf l).getD (0, 0))).getLastD (0, 0)).2]) := by
  constructor
  · have hsplit : splitNl (joinNl ls) = (ls, []) := by
      have := splitNl_join ls [] hnl (by simp)
      simpa using this
    rw [loadResponse, hsplit]
    exact loadList_good ls 0 0 hgood
  · have hnl' : ∀ l ∈ ls ++ [[]], '\n' ∉ l := by
      intro l hl
      rcases List.mem_append.mp hl with h | h
      · exact hnl l h
      · simp at h
        simp [h]
    have hsplit : splitNl (joinNl (ls ++ [[]])) = (ls ++ [[]], []) := by
      have := splitNl_join (ls ++ [[]]) [] hnl' (by simp)
      simpa using this
    rw [loadResponse, hsplit]
    exact loadList_blank ls 0 0 hgood

/-- Claim C4 witness: the two-line file `"1 2\n3 4\n"`, with and without an
extra blank line. -/
theorem c4_loader_order_amended_witness :
    loadResponse (joinNl ["1 2".toList, "3 4".toList]) = (2, [1, 3], [2, 4]) ∧
    loadResponse (joinNl (["1 2".toList, "3 4".toList] ++ [[]])) = (3, [1, 3, 3], [2, 4, 4]) := by
  have h := c4_loader_order_amended ["1 2".toList, "3 4".toList]
    (by decide) (by with_unfolding_all decide)
  refine ⟨?_, ?_⟩
  · rw [h.1]; with_unfolding_all decide
  · rw [h.2]; with_unfolding_all decide

/-! ## Lemmas about main -/

/-- Claim C7: when the run gets as far as loading the response function and
the number of loaded samples `n` does not exceed `ncoeffs`, `main` stops
with the insufficient-samples error; no calibrated spectrum and no output
header are produced, and the outcome is the same for every fitted predictor
(no fitting is consumed). -/
theorem c7_insufficient_samples_guard (inp : SysInput) (splineEst : ℚ → ℚ × ℚ)
    (hdr rc : List Char) (w1 w2 w3 w4 : ℚ) (n : Nat) (xs ys : List ℚ) (x0 x1 : ℚ)
    (hargs : inp.args.length = 5)
    (hh : inp.headerFile = some hdr)
    (h1 : readHeaderField hdr XMIN_TAG = Except.ok w1)
    (h2 : readHeaderField hdr XMAX_TAG = Except.ok w2)
    (h3 : readHeaderField hdr DELTAX_TAG = Except.ok w3)
    (h4 : readHeaderField hdr NUM_PTS_TAG = Except.ok w4)
    (hr : inp.responseFile = some rc)
    (hld : loadResponse rc = (n, xs, ys))
    (hx0 : xs.get? 0 = some x0)
    (hx1 : xs.get? (xs.length - 1) = some x1)
    (hn : n ≤ getNumCoefficients inp.args) :
    ftsMain inp splineEst = (Outcome.insufficientSamples, none, none) := by
  unfold ftsMain
  rw [if_neg (by simp [hargs]), hh]
  dsimp only
  rw [h1, h2, h3, h4, hr]
  simp only [hld, hx0, hx1, if_pos hn]

/-- Claim C7 witness: 3 response samples against `ncoeffs = 4`. -/
theorem c7_insufficient_samples_guard_witness :
    ftsMain ⟨argsW, some hdrW, some respSmallW, some [1], true⟩ evalW =
      (Outcome.insufficientSamples, none, none) :=
  c7_insufficient_samples_guard ⟨argsW, some hdrW, some respSmallW, some [1], true⟩ evalW
    hdrW respSmallW 100 101 1 2 3 [0, 1, 2] [1, 1, 1] 0 2
    (by decide) rfl
    (by with_unfolding_all rfl) (by with_unfolding_all rfl)
    (by with_unfolding_all rfl) (by with_unfolding_all rfl)
    rfl (by with_unfolding_all rfl)
    (by with_unfolding_all decide) (by with_unfolding_all decide)
    (by with_unfolding_all decide)

/-- Claim C9: `xmin = xVec[0]` and `xmax = xVec[xVec.size () - 1]` are read
before the `n <= ncoeffs` guard runs, so the guard does not protect them: a
response file that opens but yields zero samples drives `main` into the
out-of-bounds vector accesses (outcome `oobAccess`), for every argument
vector and predictor — the insufficient-samples error is never reached. -/
theorem c9_bounds_before_guard (inp : SysInput) (splineEst : ℚ → ℚ × ℚ)
    (hdr : List Char) (w1 w2 w3 w4 : ℚ)
    (hargs : inp.args.length = 5)
    (hh : inp.headerFile = some hdr)
    (h1 : readHeaderField hdr XMIN_TAG = Except.ok w1)
    (h2 : readHeaderField hdr XMAX_TAG = Except.ok w2)
    (h3 : readHeaderField hdr DELTAX_TAG = Except.ok w3)
    (h4 : readHeaderField hdr NUM_PTS_TAG = Except.ok w4)
    (hr : inp.responseFile = some []) :
    ftsMain inp splineEst = (Outcome.oobAccess, none, none) := by
  unfold ftsMain
  rw [if_neg (by simp [hargs]), hh]
  dsimp only
  rw [h1, h2, h3, h4, hr]
  simp [loadResponse, loadList, splitNl]

/-- Claim C9 witness: an empty (but openable) response file. -/
theorem c9_bounds_before_guard_witness :
    ftsMain ⟨argsW, some hdrW, some [], some [1], true⟩ evalW =
      (Outcome.oobAccess, none, none) :=
  c9_bounds_before_guard ⟨argsW, some hdrW, some [], some [1], true⟩ evalW
    hdrW 100 101 1 2
    (by decide) rfl
    (by with_unfolding_all rfl) (by with_unfolding_all rfl)
    (by with_unfolding_all rfl) (by with_unfolding_all rfl)
    rfl

/-- Inversion of a successful run: every stage must have gone through, the
output header is the input header, and the calibrated records are the
calibration loop's output. -/
theorem ftsMain_success_inv (inp : SysInput) (splineEst : ℚ → ℚ × ℚ)
    (recs : List ℚ) (ho : Option (List Char))
    (hrun : ftsMain inp splineEst = (Outcome.success, some recs, ho)) :
    ∃ hdr wstart wstop delw npo resp spec xmin xmax,
      inp.headerFile = some hdr ∧ ho = some hdr ∧
      readHeaderField hdr XMIN_TAG = Except.ok wstart ∧
      readHeaderField hdr XMAX_TAG = Except.ok wstop ∧
      readHeaderField hdr DELTAX_TAG = Except.ok delw ∧
      readHeaderField hdr NUM_PTS_TAG = Except.ok npo ∧
      inp.responseFile = some resp ∧
      inp.spectrumFile = some spec ∧
      (loadResponse resp).2.1.get? 0 = some xmin ∧
      (loadResponse resp).2.1.get? ((loadResponse resp).2.1.length - 1) = some xmax ∧
      recs = calibrate (doubleToInt npo) wstart delw xmin xmax splineEst spec := by
  unfold ftsMain at hrun
  split at hrun
  · simp at hrun
  · dsimp only at hrun
    cases hh : inp.headerFile with
    | none => rw [hh] at hrun; simp at hrun
    | some hdr =>
      rw [hh] at hrun
      dsimp only at hrun
      cases e1 : readHeaderField hdr XMIN_TAG with
      | error o => rw [e1] at hrun; simp at hrun
      | ok wstart =>
        rw [e1] at hrun
        cases e2 : readHeaderField hdr XMAX_TAG with
        | error o => rw [e2] at hrun; simp at hrun
        | ok wstop =>
          rw [e2] at hrun
          cases e3 : readHeaderField hdr DELTAX_TAG with
          | error o => rw [e3] at hrun; simp at hrun
          | ok delw =>
            rw [e3] at hrun
            cases e4 : readHeaderField hdr NUM_PTS_TAG with
            | error o => rw [e4] at hrun; simp at hrun
            | ok npo =>
              rw [e4] at hrun
              dsimp only at hrun
              cases hresp : inp.responseFile with
              | none => rw [hresp] at hrun; simp at hrun
              | some resp =>
                rw [hresp] at hrun
                dsimp only at hrun
                cases hx0 : (loadResponse resp).2.1.get? 0 with
                | none => rw [hx0] at hrun; simp at hrun
                | some xmin =>
                  rw [hx0] at hrun
                  cases hx1 : (loadResponse resp).2.1.get?
                      ((loadResponse resp).2.1.length - 1) with
                  | none => rw [hx1] at hrun; simp at hrun
                  | some xmax =>
                    rw [hx1] at hrun
                    dsimp only at hrun
                    split at hrun
                    · simp at hrun
                    · cases hspec : inp.spectrumFile with
                      | none => rw [hspec] at hrun; simp at hrun
                      | some spec =>
                        rw [hspec] at hrun
                        dsimp only at hrun
                        split at hrun
                        · simp only [Prod.mk.injEq, Option.some.injEq] at hrun
                          exact ⟨hdr, wstart, wstop, delw, npo, resp, spec, xmin, xmax,
                            rfl, hrun.2.2 ▸ rfl, e1, e2, e3, e4, rfl, rfl, hx0, hx1,
                            hrun.2.1.symm⟩
                        · simp at hrun

/-- Claim C5: a run that reaches the calibration phase and succeeds writes
exactly `sampleCount` records — the `npo` value extracted from the header —
into the calibrated spectrum, whatever the argument vector (and so whatever
`numCoefficients`) was. -/
theorem c5_record_count (inp : SysInput) (splineEst : ℚ → ℚ × ℚ)
    (recs : List ℚ) (ho : Option (List Char)) (hdr : List Char) (npo : ℚ)
    (hh : inp.headerFile = some hdr)
    (hn : readHeaderField hdr NUM_PTS_TAG = Except.ok npo)
    (hpos : 0 ≤ doubleToInt npo)
    (hrun : ftsMain inp splineEst = (Outcome.success, some recs, ho)) :
    (recs.length : Int) = doubleToInt npo := by
  obtain ⟨hdr', w1, w2, w3, npo', resp, spec, xmin, xmax,
    hh', hho, e1, e2, e3, e4, hresp, hspec, hx0, hx1, hcal⟩ :=
    ftsMain_success_inv inp splineEst recs ho hrun
  rw [hh] at hh'
  injection hh' with hhdr
  subst hhdr
  rw [hn] at e4
  injection e4 with hnpo
  subst hnpo
  rw [hcal, calibrate, calibGo_length]
  exact Int.toNat_of_nonneg hpos

/-- Claim C5 witness: a successful concrete run with `npo = 2` writes 2
records. -/
theorem c5_record_count_witness :
    ((([6, 8] : List ℚ).length : Int) = doubleToInt 2) :=
  c5_record_count ⟨argsW, some hdrW, some respW, some [6, 8], true⟩ evalW [6, 8]
    (some hdrW) hdrW 2 rfl (by with_unfolding_all rfl)
    (by with_unfolding_all decide) (by with_unfolding_all decide)

/-- Claim C8: on a successful run the output header is exactly the input
header content (the byte-by-byte copy loop of source lines 331–341), so
each of the four grid-metadata fields reads back identically from the two
files. -/
theorem c8_header_copy (inp : SysInput) (splineEst : ℚ → ℚ × ℚ)
    (recs : List ℚ) (out hdr : List Char)
    (hh : inp.headerFile = some hdr)
    (hrun : ftsMain inp splineEst = (Outcome.success, some recs, some out)) :
    out = hdr ∧
    getXGremlinHeaderField out XMIN_TAG = getXGremlinHeaderField hdr XMIN_TAG ∧
    getXGremlinHeaderField out XMAX_TAG = getXGremlinHeaderField hdr XMAX_TAG ∧
    getXGremlinHeaderField out DELTAX_TAG = getXGremlinHeaderField hdr DELTAX_TAG ∧
    getXGremlinHeaderField out NUM_PTS_TAG = getXGremlinHeaderField hdr NUM_PTS_TAG := by
  obtain ⟨hdr', w1, w2, w3, npo', resp, spec, xmin, xmax,
    hh', hho, e1, e2, e3, e4, hresp, hspec, hx0, hx1, hcal⟩ :=
    ftsMain_success_inv inp splineEst recs (some out) hrun
  rw [hh] at hh'
  injection hh' with hhdr
  subst hhdr
  injection hho with hout
  exact ⟨hout, by rw [hout], by rw [hout], by rw [hout], by rw [hout]⟩

/-- Claim C8 witness: a successful concrete run; its output header equals
its input header. -/
theorem c8_header_copy_witness :
    ftsMain ⟨argsW, some hdrW, some respW, some [6, 8], true⟩ evalW =
      (Outcome.success, some [6, 8], some hdrW) ∧
    hdrW = hdrW :=
  ⟨by with_unfolding_all decide,
   (c8_header_copy ⟨argsW, some hdrW, some respW, some [6, 8], true⟩ evalW [6, 8]
      hdrW hdrW rfl (by with_unfolding_all decide)).1⟩
